import Mathlib

/-!
Verification of the builder/accessor generation engine of `transact_derive`
(`src/transact_derive/src/builder.rs`) against its specification.

The embedding models the `syn` input data (types, attributes, fields,
derive inputs) and the generation functions of `builder.rs` as pure Lean
functions.  The generated artifacts (getters, builder struct, build impl)
are represented structurally, and the runtime behaviour of the generated
code (setters, the validating `build` function) is given an executable
semantics over presence boxes (`Option` values).
-/

namespace Transact

/-- A literal in attribute metadata (`syn::Lit`): either a string literal
or any non-string literal. -/
inductive LitVal where
  | str (value : String)
  | nonStr
deriving DecidableEq, Repr

/-- Parsed attribute metadata (`syn::Meta`): a bare word, a name-value
pair, or a meta list. -/
inductive MetaItem where
  | word (n : String)
  | nameValue (n : String) (lit : LitVal)
  | list (n : String)
deriving DecidableEq, Repr

/-- Models `Meta::name()`. -/
def MetaItem.name : MetaItem → String
  | .word n => n
  | .nameValue n _ => n
  | .list n => n

/-- An attribute (`syn::Attribute`): its path (as segment idents) and the
result of `parse_meta()` (`none` models a parse error `Err`). -/
structure Attr where
  pathSegments : List String
  parsedMeta : Option MetaItem
deriving DecidableEq, Repr

mutual
/-- A Rust type (`syn::Type`): a path type with its segments, or any
non-path type. -/
inductive RustType where
  | path (segments : List PathSegment)
  | nonPath (descr : String)

/-- A path segment (`syn::PathSegment`): ident plus path arguments. -/
inductive PathSegment where
  | mk (ident : String) (arguments : PathArguments)

/-- Models `syn::PathArguments`. -/
inductive PathArguments where
  | noArgs
  | angleBracketed (args : List GenericArg)
  | parenthesized

/-- Models `syn::GenericArgument`: a type argument or any non-type argument
(lifetime, binding, const). -/
inductive GenericArg where
  | type (t : RustType)
  | nonType
end

/-- The ident of a path segment. -/
def PathSegment.ident : PathSegment → String
  | .mk i _ => i

/-- The arguments of a path segment. -/
def PathSegment.arguments : PathSegment → PathArguments
  | .mk _ a => a

/-- A struct field (`syn::Field`): optional ident (named or tuple field),
type and attributes. -/
structure Field where
  ident : Option String
  ty : RustType
  attrs : List Attr

/-- Models `syn::Fields`: named, unnamed (tuple) or unit. -/
inductive Fields where
  | named (fields : List Field)
  | unnamed (fields : List Field)
  | unit

/-- Models `Fields::iter()` as a list. -/
def Fields.toList : Fields → List Field
  | .named fs => fs
  | .unnamed fs => fs
  | .unit => []

/-- Models `syn::Data`. -/
inductive Data where
  | struct (fields : Fields)
  | enum
  | union

/-- Models `syn::DeriveInput`: the annotated declaration. -/
structure DeriveInput where
  ident : String
  attrs : List Attr
  data : Data

/-- The source location an error is anchored to (`new_spanned`). -/
inductive Anchor where
  | declaration (input : DeriveInput)
  | type (t : RustType)

/-- A generation-time outcome that is not success: a `syn::Error` with its
message and anchor, or an abnormal abort (a Rust `unwrap` panic). -/
inductive GenError where
  | syn (message : String) (anchor : Anchor)
  | panicked

/-- Embeds `has_helper_attribue` from builder.rs: some attribute whose metadata
parses and whose name matches. -/
def has_helper_attribue (f : Field) (ident : String) : Bool :=
  (f.attrs.filterMap Attr.parsedMeta).any (fun m => m.name == ident)

/-- Embeds `has_getter_attr` from builder.rs. -/
def has_getter_attr (f : Field) : Bool :=
  has_helper_attribue f "getter"

/-- Embeds `has_optional_attr` from builder.rs. -/
def has_optional_attr (f : Field) : Bool :=
  has_helper_attribue f "optional"

/-- Embeds `is_type` from builder.rs: a path type some segment of which has the
given ident. -/
def is_type (ident : String) (ty : RustType) : Bool :=
  match ty with
  | .path segs => segs.any (fun s => s.ident == ident)
  | _ => false

/-- Embeds `is_string` from builder.rs. -/
def is_string (ty : RustType) : Bool :=
  is_type "String" ty

/-- Embeds `is_vec` from builder.rs. -/
def is_vec (ty : RustType) : Bool :=
  is_type "Vec" ty

/-- Embeds `extract_type_from_generic` from builder.rs: takes the FIRST path
segment, requires angle-bracketed arguments, and returns the FIRST
argument when it is a type; every failure is the same spanned error. -/
def extract_type_from_generic (ty : RustType) : Except GenError RustType :=
  match ty with
  | .path segs =>
    match segs.head? with
    | some seg =>
      match seg.arguments with
      | .angleBracketed args =>
        match args.head? with
        | some (.type t) => .ok t
        | some .nonType => .error (.syn "Type does not have generic" (.type ty))
        | none => .error (.syn "Type does not have generic" (.type ty))
      | _ => .error (.syn "Type does not have generic" (.type ty))
    | none => .error (.syn "Type does not have generic" (.type ty))
  | _ => .error (.syn "Type does not have generic" (.type ty))

/-- Embeds `extract_builder_name` from builder.rs: the attribute's first path
segment must be `builder_name`, its metadata must parse to a name-value
with a string literal; otherwise `none` (the attribute is skipped). -/
def extract_builder_name (a : Attr) : Option String :=
  match a.pathSegments.head? with
  | none => none
  | some seg =>
    if seg ≠ "builder_name" then none
    else
      match a.parsedMeta with
      | some (.nameValue _ (.str s)) => some s
      | _ => none

/-- Embeds `generate_builder_name` from builder.rs: the first attribute yielding
a builder name, else `<StructName>Builder`. -/
def generate_builder_name (d : DeriveInput) : String :=
  match d.attrs.findSome? extract_builder_name with
  | some n => n
  | none => d.ident ++ "Builder"

/-- Embeds `has_gen_build_fn_attr` from builder.rs, with its early `return false`
when an attribute has an empty path. -/
def has_gen_build_fn_attr : List Attr → Bool
  | [] => false
  | a :: rest =>
    match a.pathSegments.head? with
    | none => false
    | some seg => if seg == "gen_build_impl" then true else has_gen_build_fn_attr rest

/-- Embeds `get_struct_fields` from builder.rs. -/
def get_struct_fields (d : DeriveInput) : Except GenError Fields :=
  match d.data with
  | .struct fs => .ok fs
  | _ => .error (.syn "builder is only compatible with stucts" (.declaration d))

/-- Left-to-right, fail-fast traversal collecting results — the shape of
the `for` loops in builder.rs that push into a `Vec` and propagate errors
with `?` (and abort on `unwrap` panics). -/
def collectResults (g : β → Except GenError γ) : List β → Except GenError (List γ)
  | [] => .ok []
  | b :: bs =>
    match g b with
    | .error e => .error e
    | .ok c =>
      match collectResults g bs with
      | .error e => .error e
      | .ok cs => .ok (c :: cs)

/-- The return shape of a generated getter: `&str`, `&[T]`, or `&T`. -/
inductive AccessorReturn where
  | strSlice
  | slice (elem : RustType)
  | ref (ty : RustType)

/-- A generated getter: its name and return shape. -/
structure Getter where
  name : String
  ret : AccessorReturn

/-- One iteration of the getter loop in `generate_getters`: unwrap the
field ident (panics on a tuple field), then dispatch on the type shape. -/
def getterForField (f : Field) : Except GenError Getter :=
  match f.ident with
  | none => .error .panicked
  | some n =>
    if is_string f.ty then .ok ⟨n, .strSlice⟩
    else if is_vec f.ty then
      match extract_type_from_generic f.ty with
      | .ok t => .ok ⟨n, .slice t⟩
      | .error e => .error e
    else .ok ⟨n, .ref f.ty⟩

/-- Embeds `generate_getters` from builder.rs: one getter per field carrying the
`getter` attribute, in field order. -/
def generate_getters (fields : Fields) : Except GenError (List Getter) :=
  collectResults getterForField (fields.toList.filter has_getter_attr)

/-- The resolution strategy of one `let` statement in the generated
`build` function: `unwrap_or_default` for an `optional` field, else
`ok_or_else(MissingField)?`. -/
inductive LetStrategy where
  | unwrapOrDefault
  | okOrMissing (fieldName : String)
deriving DecidableEq, Repr

/-- The generated `Build` impl, structurally: names, the ordered `let`
statements, and the field names of the final struct literal. -/
structure BuildImpl where
  structName : String
  builderName : String
  lets : List LetStrategy
  fieldNames : List String

/-- One iteration of the field loop in `generate_build_impl`: unwrap the
field ident first (panics on a tuple field), then choose the strategy by
the `optional` attribute. -/
def buildLetForField (f : Field) : Except GenError (LetStrategy × String) :=
  match f.ident with
  | none => .error .panicked
  | some n =>
    .ok (if has_optional_attr f then .unwrapOrDefault else .okOrMissing n, n)

/-- Embeds `generate_build_impl` from builder.rs. -/
def generate_build_impl (d : DeriveInput) : Except GenError BuildImpl :=
  match get_struct_fields d with
  | .error e => .error e
  | .ok fields =>
    match collectResults buildLetForField fields.toList with
    | .error e => .error e
    | .ok entries =>
      .ok ⟨d.ident, generate_builder_name d, entries.map Prod.fst, entries.map Prod.snd⟩

/-- A generated setter: its name (`with_<field>`) and the field it sets. -/
structure SetterDef where
  name : String
  field : String

/-- The generated builder struct, structurally: its name, its
presence-boxed fields in source order, its setters, and the optional
`Build` impl. -/
structure BuilderDef where
  name : String
  fields : List (String × RustType)
  setters : List SetterDef
  buildImpl : Option BuildImpl

/-- One iteration of the field loop in `generate_builder_struct`: unwrap
the field ident (panics on a tuple field), produce the `with_<name>`
setter and the `name: Option<Ty>` builder field. -/
def setterForField (f : Field) : Except GenError (SetterDef × (String × RustType)) :=
  match f.ident with
  | none => .error .panicked
  | some n => .ok (⟨"with_" ++ n, n⟩, (n, f.ty))

/-- Embeds `generate_builder_struct` from builder.rs: setters and boxed fields
from the field loop, then the `Build` impl exactly when the declaration
carries `gen_build_impl`. -/
def generate_builder_struct (d : DeriveInput) : Except GenError BuilderDef :=
  match get_struct_fields d with
  | .error e => .error e
  | .ok fields =>
    match collectResults setterForField fields.toList with
    | .error e => .error e
    | .ok entries =>
      if has_gen_build_fn_attr d.attrs then
        match generate_build_impl d with
        | .error e => .error e
        | .ok bi =>
          .ok ⟨generate_builder_name d, entries.map Prod.snd, entries.map Prod.fst, some bi⟩
      else
        .ok ⟨generate_builder_name d, entries.map Prod.snd, entries.map Prod.fst, none⟩

/-- The generated `impl` block of getters on the original struct. -/
structure StructImpl where
  structName : String
  getters : List Getter

/-- Embeds `generate_struct_impl` from builder.rs. -/
def generate_struct_impl (d : DeriveInput) : Except GenError StructImpl :=
  match get_struct_fields d with
  | .error e => .error e
  | .ok fields =>
    match generate_getters fields with
    | .error e => .error e
    | .ok getters => .ok ⟨d.ident, getters⟩

/-- The full output of one generation pass: the getter impl and the
builder struct with its setters and optional build impl. -/
structure GeneratedUnit where
  structImpl : StructImpl
  builder : BuilderDef

/-- Embeds `generate_builder_macro` from builder.rs, the entry point: struct impl
first, then the builder struct; an error short-circuits and nothing is
emitted. -/
def generate_builder (d : DeriveInput) : Except GenError GeneratedUnit :=
  match generate_struct_impl d with
  | .error e => .error e
  | .ok si =>
    match generate_builder_struct d with
    | .error e => .error e
    | .ok bs => .ok ⟨si, bs⟩

/-- The error type of the generated `build` function (`BuilderError` in
the test harness). -/
inductive BuilderError where
  | missingField (n : String)
deriving DecidableEq, Repr

/-- Runtime semantics of a generated setter for the field at position `i`
of the builder: `self.<field> = Some(value); self`. -/
def setterSem (i : Nat) (v : α) (s : List (Option α)) : List (Option α) :=
  s.set i (some v)

/-- Runtime semantics of one generated `let` statement, given the field's
presence box and the default value of its type. -/
def execLet (strat : LetStrategy) (box : Option α) (dflt : α) : Except BuilderError α :=
  match strat with
  | .unwrapOrDefault => .ok (box.getD dflt)
  | .okOrMissing n =>
    match box with
    | some v => .ok v
    | none => .error (.missingField n)

/-- Runtime semantics of the generated `build` function: execute the `let`
statements in order over the builder's presence boxes (with each field
type's default value), failing fast on the first error, and assemble the
resolved values in order. -/
def execBuild : List LetStrategy → List (Option α) → List α → Except BuilderError (List α)
  | [], _, _ => .ok []
  | l :: ls, box :: boxes, dflt :: defs =>
    match execLet l box dflt with
    | .ok v =>
      match execBuild ls boxes defs with
      | .ok vs => .ok (v :: vs)
      | .error e => .error e
    | .error e => .error e
  | _ :: _, _, _ => .ok []

/-- The exposed fields of a declaration: the filter applied by the getter
loop in `generate_getters`. -/
def exposedFields (fields : Fields) : List Field :=
  fields.toList.filter has_getter_attr

/-- What `buildLetForField` produces on a named field, as a pure value
(the ident's default is irrelevant under the namedness hypothesis). -/
def namedBuildEntry (f : Field) : LetStrategy × String :=
  (if has_optional_attr f then .unwrapOrDefault else .okOrMissing (f.ident.getD ""),
   f.ident.getD "")

/-- What `setterForField` produces on a named field, as a pure value. -/
def namedSetterEntry (f : Field) : SetterDef × (String × RustType) :=
  (⟨"with_" ++ f.ident.getD "", f.ident.getD ""⟩, (f.ident.getD "", f.ty))

/-- The contract of one generated getter against its source field: named
after the field, and its return shape follows the type classification of
`generate_getters` (text view for `String`-classified, element view for
`Vec`-classified with the extracted element type, in-place reference
otherwise). -/
def getterMatches (f : Field) (g : Getter) : Prop :=
  f.ident = some g.name ∧
  (is_string f.ty = true → g.ret = .strSlice) ∧
  (is_string f.ty = false → is_vec f.ty = true →
    ∃ t, extract_type_from_generic f.ty = .ok t ∧ g.ret = .slice t) ∧
  (is_string f.ty = false → is_vec f.ty = false → g.ret = .ref f.ty)

/-! ## Helper lemmas -/

/-- If every attribute fails to yield a builder name, the default
`<StructName>Builder` is used. -/
theorem generate_builder_name_default (d : DeriveInput)
    (h : ∀ a ∈ d.attrs, extract_builder_name a = none) :
    generate_builder_name d = d.ident ++ "Builder" := by
  unfold generate_builder_name
  rw [List.findSome?_eq_none_iff.mpr h]

/-- Lemma: `findSome?` returns the first hit. -/
theorem findSome?_first_hit {β γ : Type} (f : β → Option γ) :
    ∀ (pre : List β) (a : β) (post : List β) (s : γ),
      (∀ b ∈ pre, f b = none) → f a = some s →
      (pre ++ a :: post).findSome? f = some s := by
  intro pre
  induction pre with
  | nil =>
    intro a post s _ ha
    simp [List.findSome?_cons, ha]
  | cons b bs ih =>
    intro a post s hpre ha
    have hb : f b = none := hpre b (List.mem_cons_self b bs)
    simp only [List.cons_append, List.findSome?_cons, hb]
    exact ih a post s (fun x hx => hpre x (List.mem_cons_of_mem b hx)) ha

/-- Lemma: `extract_type_from_generic` either succeeds or produces the single
spanned "Type does not have generic" error. -/
theorem extract_shape (ty : RustType) :
    (∃ t, extract_type_from_generic ty = .ok t) ∨
    extract_type_from_generic ty =
      .error (.syn "Type does not have generic" (.type ty)) := by
  cases ty with
  | nonPath s => exact .inr rfl
  | path segs =>
    cases segs with
    | nil => exact .inr rfl
    | cons seg rest =>
      cases seg with
      | mk n sargs =>
        cases sargs with
        | noArgs => exact .inr rfl
        | parenthesized => exact .inr rfl
        | angleBracketed l =>
          cases l with
          | nil => exact .inr rfl
          | cons a tl =>
            cases a with
            | nonType => exact .inr rfl
            | type t0 => exact .inl ⟨t0, rfl⟩

/-- Lemma: `extract_type_from_generic` never aborts abnormally. -/
theorem extract_no_panic (ty : RustType) :
    extract_type_from_generic ty ≠ .error .panicked := by
  intro hc
  rcases extract_shape ty with ⟨t, he⟩ | he <;> rw [he] at hc <;> exact nomatch hc

/-- A named field's getter generation never aborts abnormally. -/
theorem getterForField_no_panic (f : Field) (h : f.ident.isSome) :
    getterForField f ≠ .error .panicked := by
  intro hc
  rcases Option.isSome_iff_exists.mp h with ⟨n, hn⟩
  unfold getterForField at hc
  rw [hn] at hc
  by_cases hs : is_string f.ty
  · simp [hs] at hc
  · by_cases hv : is_vec f.ty
    · rcases extract_shape f.ty with ⟨t, he⟩ | he <;> simp [hs, hv, he] at hc
    · simp [hs, hv] at hc

/-- A named field's setter generation succeeds. -/
theorem setterForField_ok (f : Field) (n : String) (h : f.ident = some n) :
    setterForField f = .ok (⟨"with_" ++ n, n⟩, (n, f.ty)) := by
  unfold setterForField
  rw [h]

/-- A named field's build-let generation succeeds. -/
theorem buildLetForField_ok (f : Field) (n : String) (h : f.ident = some n) :
    buildLetForField f =
      .ok (if has_optional_attr f then .unwrapOrDefault else .okOrMissing n, n) := by
  unfold buildLetForField
  rw [h]

/-- If no element's processing aborts abnormally, neither does the
fail-fast traversal. -/
theorem collectResults_no_panic {β γ : Type} (g : β → Except GenError γ) :
    ∀ l : List β, (∀ x ∈ l, g x ≠ .error .panicked) →
      collectResults g l ≠ .error .panicked := by
  intro l
  induction l with
  | nil => intro _ hc; exact nomatch hc
  | cons b bs ih =>
    intro h hc
    unfold collectResults at hc
    match hgb : g b with
    | .error e =>
      rw [hgb] at hc
      injection hc with he
      rw [he] at hgb
      exact h b (List.mem_cons_self b bs) hgb
    | .ok c =>
      rw [hgb] at hc
      match hcr : collectResults g bs with
      | .error e =>
        rw [hcr] at hc
        injection hc with he
        rw [he] at hcr
        exact ih (fun x hx => h x (List.mem_cons_of_mem b hx)) hcr
      | .ok cs =>
        rw [hcr] at hc
        exact nomatch hc

/-- On a struct declaration `get_struct_fields` succeeds. -/
theorem get_struct_fields_ok (d : DeriveInput) (fs : Fields)
    (hd : d.data = .struct fs) : get_struct_fields d = .ok fs := by
  simp [get_struct_fields, hd]

/-- Getter generation over named fields never aborts abnormally. -/
theorem generate_getters_no_panic (fs : Fields)
    (hn : ∀ f ∈ fs.toList, f.ident.isSome) :
    generate_getters fs ≠ .error .panicked := by
  apply collectResults_no_panic
  intro x hx
  exact getterForField_no_panic x (hn x (List.mem_of_mem_filter hx))

/-- Struct-impl generation over a named-field struct never aborts
abnormally. -/
theorem generate_struct_impl_no_panic (d : DeriveInput) (fs : Fields)
    (hd : d.data = .struct fs) (hn : ∀ f ∈ fs.toList, f.ident.isSome) :
    generate_struct_impl d ≠ .error .panicked := by
  intro hc
  unfold generate_struct_impl at hc
  rw [get_struct_fields_ok d fs hd] at hc
  dsimp only at hc
  match hgg : generate_getters fs with
  | .error e =>
    rw [hgg] at hc
    injection hc with he
    rw [he] at hgg
    exact generate_getters_no_panic fs hn hgg
  | .ok gs =>
    rw [hgg] at hc
    exact nomatch hc

/-- Build-impl generation over a named-field struct never aborts
abnormally. -/
theorem generate_build_impl_no_panic (d : DeriveInput) (fs : Fields)
    (hd : d.data = .struct fs) (hn : ∀ f ∈ fs.toList, f.ident.isSome) :
    generate_build_impl d ≠ .error .panicked := by
  intro hc
  unfold generate_build_impl at hc
  rw [get_struct_fields_ok d fs hd] at hc
  have hbl : collectResults buildLetForField fs.toList ≠ .error .panicked := by
    apply collectResults_no_panic
    intro x hx hxc
    rcases Option.isSome_iff_exists.mp (hn x hx) with ⟨n, hxn⟩
    rw [buildLetForField_ok x n hxn] at hxc
    exact nomatch hxc
  dsimp only at hc
  match hcc : collectResults buildLetForField fs.toList with
  | .error e =>
    rw [hcc] at hc
    injection hc with he
    rw [he] at hcc
    exact hbl hcc
  | .ok es =>
    rw [hcc] at hc
    exact nomatch hc

/-- Builder-struct generation over a named-field struct never aborts
abnormally. -/
theorem generate_builder_struct_no_panic (d : DeriveInput) (fs : Fields)
    (hd : d.data = .struct fs) (hn : ∀ f ∈ fs.toList, f.ident.isSome) :
    generate_builder_struct d ≠ .error .panicked := by
  intro hc
  unfold generate_builder_struct at hc
  rw [get_struct_fields_ok d fs hd] at hc
  have hset : collectResults setterForField fs.toList ≠ .error .panicked := by
    apply collectResults_no_panic
    intro x hx hxc
    rcases Option.isSome_iff_exists.mp (hn x hx) with ⟨n, hxn⟩
    rw [setterForField_ok x n hxn] at hxc
    exact nomatch hxc
  dsimp only at hc
  match hcc : collectResults setterForField fs.toList with
  | .error e =>
    rw [hcc] at hc
    injection hc with he
    rw [he] at hcc
    exact hset hcc
  | .ok es =>
    rw [hcc] at hc
    dsimp only at hc
    by_cases hg : has_gen_build_fn_attr d.attrs
    · rw [if_pos hg] at hc
      match hbi : generate_build_impl d with
      | .error e =>
        rw [hbi] at hc
        injection hc with he
        rw [he] at hbi
        exact generate_build_impl_no_panic d fs hd hn hbi
      | .ok bi =>
        rw [hbi] at hc
        exact nomatch hc
    · rw [if_neg hg] at hc
      exact nomatch hc

/-- Full generation over a named-field struct never aborts abnormally. -/
theorem generate_builder_no_panic (d : DeriveInput) (fs : Fields)
    (hd : d.data = .struct fs) (hn : ∀ f ∈ fs.toList, f.ident.isSome) :
    generate_builder d ≠ .error .panicked := by
  intro hc
  unfold generate_builder at hc
  match hsi : generate_struct_impl d with
  | .error e =>
    rw [hsi] at hc
    injection hc with he
    rw [he] at hsi
    exact generate_struct_impl_no_panic d fs hd hn hsi
  | .ok si =>
    rw [hsi] at hc
    match hbs : generate_builder_struct d with
    | .error e =>
      rw [hbs] at hc
      injection hc with he
      rw [he] at hbs
      exact generate_builder_struct_no_panic d fs hd hn hbs
    | .ok bs =>
      rw [hbs] at hc
      exact nomatch hc

/-! ## Claims -/

/-- C5: the generated companion type's name is the custom-name
(`builder_name`) directive's string value used verbatim when such a
directive is present (the first one, with earlier attributes yielding no
name), and otherwise the declaration's name with the suffix `Builder`
appended. -/
theorem claim_c5 (d : DeriveInput) :
    ((∀ a ∈ d.attrs, extract_builder_name a = none) →
        generate_builder_name d = d.ident ++ "Builder") ∧
    (∀ (pre : List Attr) (a : Attr) (post : List Attr) (s : String),
        d.attrs = pre ++ a :: post →
        (∀ b ∈ pre, extract_builder_name b = none) →
        extract_builder_name a = some s →
        generate_builder_name d = s) := by
  constructor
  · exact generate_builder_name_default d
  · intro pre a post s hattrs hpre ha
    unfold generate_builder_name
    rw [hattrs, findSome?_first_hit extract_builder_name pre a post s hpre ha]

/-- Witness for C5 at concrete inputs: a well-formed `builder_name`
directive is used verbatim; without one the default name is used. -/
theorem claim_c5_witness :
    generate_builder_name
        ⟨"Organization",
          [⟨["builder_name"], some (.nameValue "builder_name" (.str "OrgBuilder"))⟩],
          .struct (.named [])⟩ = "OrgBuilder" ∧
    generate_builder_name ⟨"Agent", [], .struct (.named [])⟩ = "AgentBuilder" :=
  ⟨(claim_c5 _).2 [] _ [] "OrgBuilder" rfl (by simp) rfl,
   (claim_c5 _).1 (by simp)⟩

/-- C6 counterexample: a `builder_name` directive with no argument
(`#[builder_name]`, whose metadata parses to a bare word) is silently
skipped — the companion name falls back to the default `FooBuilder` and
generation succeeds, rather than failing with a malformed-argument
error. -/
theorem claim_c6_counterexample :
    extract_builder_name ⟨["builder_name"], some (.word "builder_name")⟩ = none ∧
    generate_builder_name
        ⟨"Foo", [⟨["builder_name"], some (.word "builder_name")⟩],
          .struct (.named [])⟩ = "FooBuilder" ∧
    generate_builder
        ⟨"Foo", [⟨["builder_name"], some (.word "builder_name")⟩],
          .struct (.named [])⟩ =
      .ok ⟨⟨"Foo", []⟩, ⟨"FooBuilder", [], [], none⟩⟩ :=
  ⟨rfl, rfl, rfl⟩

/-- C6 (amended): a custom-name directive whose metadata is not a
name-value pair with a string literal yields no name and is silently
ignored; when no attribute yields a name, the default
`<DeclarationName>Builder` is used and no error is raised. -/
theorem claim_c6 :
    (∀ a : Attr,
        (∀ n s, a.parsedMeta ≠ some (.nameValue n (.str s))) →
        extract_builder_name a = none) ∧
    (∀ d : DeriveInput, (∀ a ∈ d.attrs, extract_builder_name a = none) →
        generate_builder_name d = d.ident ++ "Builder") := by
  constructor
  · intro a h
    unfold extract_builder_name
    match hh : a.pathSegments.head? with
    | none => rfl
    | some seg =>
      dsimp only
      by_cases hseg : seg = "builder_name"
      · rw [if_neg (by simp [hseg])]
        match hm : a.parsedMeta with
        | some (.nameValue n (.str s)) => exact absurd hm (h n s)
        | some (.nameValue n .nonStr) => rfl
        | some (.word n) => rfl
        | some (.list n) => rfl
        | none => rfl
      · rw [if_pos hseg]
  · exact generate_builder_name_default

/-- Witness for C6 at concrete inputs: a `builder_name` attribute whose
metadata failed to parse yields no name, and a declaration with only that
attribute gets the default name. -/
theorem claim_c6_witness :
    extract_builder_name ⟨["builder_name"], none⟩ = none ∧
    generate_builder_name
        ⟨"Bar", [⟨["builder_name"], none⟩], .struct (.named [])⟩ = "BarBuilder" :=
  ⟨claim_c6.1 ⟨["builder_name"], none⟩ (fun n s h => nomatch h),
   claim_c6.2 _ (by
     intro a ha
     simp only [List.mem_singleton] at ha
     rw [ha]
     exact claim_c6.1 _ (fun n s h => nomatch h))⟩

/-- C7: for a declaration that is not a struct, generation fails with the
"only compatible with structs" error anchored to the declaration, and no
code is emitted. -/
theorem claim_c7 (d : DeriveInput) (h : ∀ fs, d.data ≠ Data.struct fs) :
    generate_builder d =
      .error (.syn "builder is only compatible with stucts" (.declaration d)) := by
  have hgs : get_struct_fields d =
      .error (.syn "builder is only compatible with stucts" (.declaration d)) := by
    cases hd : d.data with
    | struct fs => exact absurd hd (h fs)
    | enum => simp [get_struct_fields, hd]
    | union => simp [get_struct_fields, hd]
  simp [generate_builder, generate_struct_impl, hgs]

/-- Witness for C7: a concrete enum declaration is rejected with the
spanned error. -/
theorem claim_c7_witness :
    generate_builder ⟨"E", [], .enum⟩ =
      .error (.syn "builder is only compatible with stucts"
        (.declaration ⟨"E", [], .enum⟩)) :=
  claim_c7 _ (fun _ h => nomatch h)

/-- C8 counterexample: a sequence-classified type with TWO type
parameters (`Vec<String, u64>` as a syntactic type path) does not make
extraction fail — the first parameter is extracted and accessor
generation succeeds, contradicting the claim that more than one
parameter is an error. -/
theorem claim_c8_counterexample :
    is_vec (.path [.mk "Vec" (.angleBracketed
        [.type (.path [.mk "String" .noArgs]),
         .type (.path [.mk "u64" .noArgs])])]) = true ∧
    extract_type_from_generic (.path [.mk "Vec" (.angleBracketed
        [.type (.path [.mk "String" .noArgs]),
         .type (.path [.mk "u64" .noArgs])])]) =
      .ok (.path [.mk "String" .noArgs]) ∧
    generate_getters (.named
        [⟨some "xs",
          .path [.mk "Vec" (.angleBracketed
            [.type (.path [.mk "String" .noArgs]),
             .type (.path [.mk "u64" .noArgs])])],
          [⟨["getter"], some (.word "getter")⟩]⟩]) =
      .ok [⟨"xs", .slice (.path [.mk "String" .noArgs])⟩] :=
  ⟨rfl, rfl, rfl⟩

/-- C8 (amended): element extraction from a declared type succeeds exactly
when the type is a path whose FIRST segment carries an angle-bracketed
argument list whose FIRST argument is a type; that first argument is the
extracted element type, regardless of any further arguments; every
failure is the single spanned "Type does not have generic" error. -/
theorem claim_c8 (ty : RustType) :
    (∀ (n : String) (args : List GenericArg) (rest : List PathSegment)
        (t : RustType),
        ty = .path (.mk n (.angleBracketed (.type t :: args)) :: rest) →
        extract_type_from_generic ty = .ok t) ∧
    ((∃ t, extract_type_from_generic ty = .ok t) →
        ∃ n args rest t,
          ty = .path (.mk n (.angleBracketed (.type t :: args)) :: rest)) ∧
    (∀ e, extract_type_from_generic ty = .error e →
        e = .syn "Type does not have generic" (.type ty)) := by
  refine ⟨?_, ?_, ?_⟩
  · intro n args rest t hty
    subst hty
    rfl
  · rintro ⟨t, h⟩
    cases ty with
    | nonPath s => exact nomatch h
    | path segs =>
      cases segs with
      | nil => exact nomatch h
      | cons seg rest =>
        cases seg with
        | mk n sargs =>
          cases sargs with
          | noArgs => exact nomatch h
          | parenthesized => exact nomatch h
          | angleBracketed l =>
            cases l with
            | nil => exact nomatch h
            | cons a tl =>
              cases a with
              | nonType => exact nomatch h
              | type t0 => exact ⟨n, tl, rest, t0, rfl⟩
  · intro e h
    rcases extract_shape ty with ⟨t, he⟩ | he
    · rw [he] at h
      exact nomatch h
    · rw [he] at h
      injection h with h
      exact h.symm

/-- Witness for C8 at a concrete input: `Vec<String>` extracts to
`String`. -/
theorem claim_c8_witness :
    extract_type_from_generic
        (.path [.mk "Vec" (.angleBracketed [.type (.path [.mk "String" .noArgs])])]) =
      .ok (.path [.mk "String" .noArgs]) :=
  (claim_c8 _).1 "Vec" [] [] _ rfl

/-- C9: the shape check accepts any struct (tuple structs included); a
concrete tuple-struct input drives generation into the field-ident
unwrap's failure branch (an abnormal abort, not a descriptive error);
and when every field is named that branch is unreachable. -/
theorem claim_c9 :
    (∀ (d : DeriveInput) (fs : Fields), d.data = .struct fs →
        get_struct_fields d = .ok fs) ∧
    generate_builder
        ⟨"Pair", [], .struct (.unnamed [⟨none, .path [.mk "u64" .noArgs], []⟩])⟩ =
      .error .panicked ∧
    (∀ (d : DeriveInput) (fs : Fields), d.data = .struct fs →
        (∀ f ∈ fs.toList, f.ident.isSome) →
        generate_builder d ≠ .error .panicked) := by
  refine ⟨?_, rfl, ?_⟩
  · intro d fs hd
    exact get_struct_fields_ok d fs hd
  · intro d fs hd hn
    exact generate_builder_no_panic d fs hd hn

/-- Witness for C9 at concrete inputs: a named-field struct is accepted
and generation does not abort abnormally. -/
theorem claim_c9_witness :
    get_struct_fields ⟨"A", [], .struct (.named [])⟩ = .ok (.named []) ∧
    generate_builder
        ⟨"A", [], .struct (.named [⟨some "x", .path [.mk "u64" .noArgs], []⟩])⟩ ≠
      .error .panicked :=
  ⟨claim_c9.1 _ _ rfl,
   claim_c9.2.2 _ (.named [⟨some "x", .path [.mk "u64" .noArgs], []⟩]) rfl
     (by decide)⟩

/-- C10: the qualified sequence type `std::vec::Vec<String>` is
classified as a sequence (some segment is `Vec`) but element extraction
inspects only the FIRST segment (`std`), so accessor generation for an
exposed field of this valid one-parameter sequence type fails with the
spanned "Type does not have generic" error. -/
theorem claim_c10 :
    is_vec (.path [.mk "std" .noArgs, .mk "vec" .noArgs,
        .mk "Vec" (.angleBracketed [.type (.path [.mk "String" .noArgs])])]) = true ∧
    is_string (.path [.mk "std" .noArgs, .mk "vec" .noArgs,
        .mk "Vec" (.angleBracketed [.type (.path [.mk "String" .noArgs])])]) = false ∧
    extract_type_from_generic (.path [.mk "std" .noArgs, .mk "vec" .noArgs,
        .mk "Vec" (.angleBracketed [.type (.path [.mk "String" .noArgs])])]) =
      .error (.syn "Type does not have generic"
        (.type (.path [.mk "std" .noArgs, .mk "vec" .noArgs,
          .mk "Vec" (.angleBracketed [.type (.path [.mk "String" .noArgs])])]))) ∧
    generate_getters (.named
        [⟨some "items",
          .path [.mk "std" .noArgs, .mk "vec" .noArgs,
            .mk "Vec" (.angleBracketed [.type (.path [.mk "String" .noArgs])])],
          [⟨["getter"], some (.word "getter")⟩]⟩]) =
      .error (.syn "Type does not have generic"
        (.type (.path [.mk "std" .noArgs, .mk "vec" .noArgs,
          .mk "Vec" (.angleBracketed [.type (.path [.mk "String" .noArgs])])]))) :=
  ⟨rfl, rfl, rfl, rfl⟩

/-- A successful fail-fast traversal returns one result per input. -/
theorem collectResults_ok_length {β γ : Type} (g : β → Except GenError γ) :
    ∀ (l : List β) (r : List γ), collectResults g l = .ok r →
      r.length = l.length := by
  intro l
  induction l with
  | nil =>
    intro r h
    simp only [collectResults, Except.ok.injEq] at h
    subst h
    rfl
  | cons b bs ih =>
    intro r h
    simp only [collectResults] at h
    match hgb : g b with
    | .error e => rw [hgb] at h; exact nomatch h
    | .ok c =>
      rw [hgb] at h
      dsimp only at h
      match hcr : collectResults g bs with
      | .error e => rw [hcr] at h; exact nomatch h
      | .ok cs =>
        rw [hcr] at h
        injection h with h
        rw [← h]
        simp [ih cs hcr]

/-- A successful fail-fast traversal's i-th result comes from the i-th
input. -/
theorem collectResults_ok_get {β γ : Type} (g : β → Except GenError γ) :
    ∀ (l : List β) (r : List γ), collectResults g l = .ok r →
      ∀ i (hi : i < l.length) (hi' : i < r.length),
        g (l.get ⟨i, hi⟩) = .ok (r.get ⟨i, hi'⟩) := by
  intro l
  induction l with
  | nil =>
    intro r h i hi
    exact absurd hi (Nat.not_lt_zero i)
  | cons b bs ih =>
    intro r h i hi hi'
    simp only [collectResults] at h
    match hgb : g b with
    | .error e => rw [hgb] at h; exact nomatch h
    | .ok c =>
      rw [hgb] at h
      dsimp only at h
      match hcr : collectResults g bs with
      | .error e => rw [hcr] at h; exact nomatch h
      | .ok cs =>
        rw [hcr] at h
        injection h with h
        subst h
        match i with
        | 0 => exact hgb
        | i + 1 =>
          exact ih cs hcr i (Nat.lt_of_succ_lt_succ hi) (Nat.lt_of_succ_lt_succ hi')

/-- If every element maps to a success, the fail-fast traversal returns
exactly the mapped list. -/
theorem collectResults_map {β γ : Type} (g : β → Except GenError γ) (p : β → γ) :
    ∀ l : List β, (∀ x ∈ l, g x = .ok (p x)) →
      collectResults g l = .ok (l.map p) := by
  intro l
  induction l with
  | nil => intro _; rfl
  | cons b bs ih =>
    intro h
    have hb : g b = .ok (p b) := h b (List.mem_cons_self b bs)
    have hbs := ih (fun x hx => h x (List.mem_cons_of_mem b hx))
    simp [collectResults, hb, hbs]

/-- A successfully generated getter satisfies its per-field contract. -/
theorem getterForField_spec (f : Field) (gt : Getter)
    (h : getterForField f = .ok gt) : getterMatches f gt := by
  match hf : f.ident with
  | none =>
    unfold getterForField at h
    rw [hf] at h
    exact nomatch h
  | some n =>
    unfold getterForField at h
    rw [hf] at h
    dsimp only at h
    by_cases hs : is_string f.ty
    · rw [if_pos hs] at h
      injection h with h
      subst h
      refine ⟨hf, fun _ => rfl, fun hfalse _ => ?_, fun hfalse _ => ?_⟩ <;>
        (rw [hs] at hfalse; exact nomatch hfalse)
    · rw [if_neg hs] at h
      rw [Bool.not_eq_true] at hs
      by_cases hv : is_vec f.ty
      · rw [if_pos hv] at h
        match he : extract_type_from_generic f.ty with
        | .error e => rw [he] at h; exact nomatch h
        | .ok t =>
          rw [he] at h
          injection h with h
          subst h
          refine ⟨hf, fun htr => ?_, fun _ _ => ⟨t, he, rfl⟩, fun _ hfalse => ?_⟩
          · rw [hs] at htr; exact nomatch htr
          · rw [hv] at hfalse; exact nomatch hfalse
      · rw [if_neg hv] at h
        rw [Bool.not_eq_true] at hv
        injection h with h
        subst h
        refine ⟨hf, fun htr => ?_, fun _ htr => ?_, fun _ _ => rfl⟩
        · rw [hs] at htr; exact nomatch htr
        · rw [hv] at htr; exact nomatch htr

/-- C4: for every field flagged with the `getter` (expose) directive,
exactly one accessor is generated, in field order, named identically to
the field; its return shape is the text view for a `String`-classified
type, the element view (with the extracted element type) for a
`Vec`-classified type, and an in-place reference otherwise; fields
lacking the directive contribute no accessor (the generated list is in
one-to-one order-preserving correspondence with the exposed fields). -/
theorem claim_c4 (fields : Fields) (gs : List Getter)
    (h : generate_getters fields = .ok gs) :
    gs.length = (exposedFields fields).length ∧
    ∀ i (hi : i < (exposedFields fields).length) (hi' : i < gs.length),
      getterMatches ((exposedFields fields).get ⟨i, hi⟩) (gs.get ⟨i, hi'⟩) := by
  have h' : collectResults getterForField (exposedFields fields) = .ok gs := h
  refine ⟨collectResults_ok_length getterForField _ gs h', ?_⟩
  intro i hi hi'
  exact getterForField_spec _ _ (collectResults_ok_get getterForField _ gs h' i hi hi')

/-- Witness for C4 at a concrete input: a declaration with one exposed
`String` field and one unexposed field yields exactly one getter. -/
theorem claim_c4_witness :
    [Getter.mk "public_key" .strSlice].length =
      (exposedFields (.named
        [⟨some "public_key", .path [.mk "String" .noArgs],
          [⟨["getter"], some (.word "getter")⟩]⟩,
         ⟨some "hidden", .path [.mk "u64" .noArgs], []⟩])).length :=
  (claim_c4 (.named
        [⟨some "public_key", .path [.mk "String" .noArgs],
          [⟨["getter"], some (.word "getter")⟩]⟩,
         ⟨some "hidden", .path [.mk "u64" .noArgs], []⟩])
      [Getter.mk "public_key" .strSlice] rfl).1

/-- If every required (non-defaultable) strategy's box is present, the
generated build succeeds. -/
theorem execBuild_ok_of_present {α : Type} :
    ∀ (ls : List LetStrategy) (boxes : List (Option α)) (defs : List α),
      boxes.length = ls.length → defs.length = ls.length →
      (∀ i (hi : i < ls.length) (hi' : i < boxes.length) n,
          ls.get ⟨i, hi⟩ = .okOrMissing n → (boxes.get ⟨i, hi'⟩).isSome) →
      ∃ r, execBuild ls boxes defs = .ok r := by
  intro ls
  induction ls with
  | nil => intro boxes defs _ _ _; exact ⟨[], rfl⟩
  | cons l ls ih =>
    intro boxes defs hb hd hp
    match boxes, defs with
    | box :: boxes, dflt :: defs =>
      have hb' : boxes.length = ls.length := by simpa using hb
      have hd' : defs.length = ls.length := by simpa using hd
      have hrec : ∃ r, execBuild ls boxes defs = .ok r := by
        apply ih boxes defs hb' hd'
        intro i hi hi' n hn
        exact hp (i + 1) (Nat.succ_lt_succ hi) (Nat.succ_lt_succ hi') n hn
      rcases hrec with ⟨r, hr⟩
      cases l with
      | unwrapOrDefault =>
        exact ⟨box.getD dflt :: r, by simp [execBuild, execLet, hr]⟩
      | okOrMissing n =>
        have hbox : box.isSome := hp 0 (Nat.succ_pos _) (Nat.succ_pos _) n rfl
        rcases Option.isSome_iff_exists.mp hbox with ⟨v, hv⟩
        exact ⟨v :: r, by simp [execBuild, execLet, hv, hr]⟩

/-- A successful generated build resolves one value per field. -/
theorem execBuild_ok_length {α : Type} :
    ∀ (ls : List LetStrategy) (boxes : List (Option α)) (defs : List α)
      (r : List α),
      execBuild ls boxes defs = .ok r →
      boxes.length = ls.length → defs.length = ls.length →
      r.length = ls.length := by
  intro ls
  induction ls with
  | nil =>
    intro boxes defs r h _ _
    simp only [execBuild, Except.ok.injEq] at h
    subst h
    rfl
  | cons l ls ih =>
    intro boxes defs r h hb hd
    match boxes, defs with
    | box :: boxes, dflt :: defs =>
      have hb' : boxes.length = ls.length := by simpa using hb
      have hd' : defs.length = ls.length := by simpa using hd
      simp only [execBuild] at h
      match he : execLet l box dflt with
      | .error e => rw [he] at h; exact nomatch h
      | .ok v =>
        rw [he] at h
        dsimp only at h
        match hr : execBuild ls boxes defs with
        | .error e => rw [hr] at h; exact nomatch h
        | .ok vs =>
          rw [hr] at h
          injection h with h
          subst h
          simp [ih boxes defs vs hr hb' hd']

/-- In a successful generated build, a defaultable field resolves to box
or default, and a required field's box held exactly the resolved value. -/
theorem execBuild_ok_get {α : Type} :
    ∀ (ls : List LetStrategy) (boxes : List (Option α)) (defs : List α)
      (r : List α),
      execBuild ls boxes defs = .ok r →
      boxes.length = ls.length → defs.length = ls.length →
      ∀ i (hi : i < ls.length) (hi' : i < boxes.length)
        (hid : i < defs.length) (hir : i < r.length),
        (ls.get ⟨i, hi⟩ = .unwrapOrDefault →
          r.get ⟨i, hir⟩ = (boxes.get ⟨i, hi'⟩).getD (defs.get ⟨i, hid⟩)) ∧
        (∀ n, ls.get ⟨i, hi⟩ = .okOrMissing n →
          boxes.get ⟨i, hi'⟩ = some (r.get ⟨i, hir⟩)) := by
  intro ls
  induction ls with
  | nil =>
    intro boxes defs r h _ _ i hi
    exact absurd hi (Nat.not_lt_zero i)
  | cons l ls ih =>
    intro boxes defs r h hb hd i hi hi' hid hir
    match boxes, defs with
    | box :: boxes, dflt :: defs =>
      have hb' : boxes.length = ls.length := by simpa using hb
      have hd' : defs.length = ls.length := by simpa using hd
      simp only [execBuild] at h
      match he : execLet l box dflt with
      | .error e => rw [he] at h; exact nomatch h
      | .ok v =>
        rw [he] at h
        dsimp only at h
        match hr : execBuild ls boxes defs with
        | .error e => rw [hr] at h; exact nomatch h
        | .ok vs =>
          rw [hr] at h
          injection h with h
          subst h
          match i with
          | 0 =>
            cases l with
            | unwrapOrDefault =>
              simp only [execLet, Except.ok.injEq] at he
              subst he
              exact ⟨fun _ => rfl, fun n hn => nomatch hn⟩
            | okOrMissing n =>
              refine ⟨fun hfalse => (nomatch hfalse), fun m _ => ?_⟩
              simp only [execLet] at he
              match box with
              | none => exact nomatch he
              | some v0 =>
                injection he with he
                rw [he]
                rfl
          | i + 1 =>
            exact ih boxes defs vs hr hb' hd' i (Nat.lt_of_succ_lt_succ hi)
              (Nat.lt_of_succ_lt_succ hi') (Nat.lt_of_succ_lt_succ hid)
              (Nat.lt_of_succ_lt_succ hir)

/-- In a successful generated build, every required field's box was
present. -/
theorem execBuild_present_of_ok {α : Type}
    (ls : List LetStrategy) (boxes : List (Option α)) (defs : List α)
    (r : List α)
    (h : execBuild ls boxes defs = .ok r)
    (hb : boxes.length = ls.length) (hd : defs.length = ls.length) :
    ∀ i (hi : i < ls.length) (hi' : i < boxes.length) n,
      ls.get ⟨i, hi⟩ = .okOrMissing n → (boxes.get ⟨i, hi'⟩).isSome := by
  intro i hi hi' n hn
  have hir : i < r.length := by
    rw [execBuild_ok_length ls boxes defs r h hb hd]; exact hi
  have := (execBuild_ok_get ls boxes defs r h hb hd i hi hi' (by omega) hir).2 n hn
  rw [this]
  rfl

/-- The generated build fails with `MissingField` naming the first (in
declared order) required field whose box is absent, without inspecting
later fields. -/
theorem execBuild_first_missing {α : Type} :
    ∀ (ls : List LetStrategy) (boxes : List (Option α)) (defs : List α),
      boxes.length = ls.length → defs.length = ls.length →
      ∀ i (hi : i < ls.length) (hi' : i < boxes.length) (n : String),
        ls.get ⟨i, hi⟩ = .okOrMissing n →
        boxes.get ⟨i, hi'⟩ = none →
        (∀ j (hj : j < ls.length) (hj' : j < boxes.length) m, j < i →
            ls.get ⟨j, hj⟩ = .okOrMissing m → (boxes.get ⟨j, hj'⟩).isSome) →
        execBuild ls boxes defs = .error (.missingField n) := by
  intro ls
  induction ls with
  | nil =>
    intro boxes defs _ _ i hi
    exact absurd hi (Nat.not_lt_zero i)
  | cons l ls ih =>
    intro boxes defs hb hd i hi hi' n hn hbox hprev
    match boxes, defs with
    | box :: boxes, dflt :: defs =>
      have hb' : boxes.length = ls.length := by simpa using hb
      have hd' : defs.length = ls.length := by simpa using hd
      match i with
      | 0 =>
        have hl : l = .okOrMissing n := hn
        have hb0 : box = none := hbox
        subst hl
        simp [execBuild, execLet, hb0]
      | i + 1 =>
        have hrec : execBuild ls boxes defs = .error (.missingField n) := by
          apply ih boxes defs hb' hd' i (Nat.lt_of_succ_lt_succ hi)
            (Nat.lt_of_succ_lt_succ hi') n hn hbox
          intro j hj hj' m hji hjl
          exact hprev (j + 1) (Nat.succ_lt_succ hj) (Nat.succ_lt_succ hj') m
            (Nat.succ_lt_succ hji) hjl
        cases l with
        | unwrapOrDefault =>
          simp [execBuild, execLet, hrec]
        | okOrMissing m =>
          have hbox0 : box.isSome :=
            hprev 0 (Nat.succ_pos _) (Nat.succ_pos _) m (Nat.succ_pos _) rfl
          rcases Option.isSome_iff_exists.mp hbox0 with ⟨v, hv⟩
          simp [execBuild, execLet, hv, hrec]

/-- Getting from a mapped list, with independent bound proofs. -/
theorem get_map' {β γ : Type} (f : β → γ) (l : List β) (i : Nat)
    (h : i < (l.map f).length) (h' : i < l.length) :
    (l.map f).get ⟨i, h⟩ = f (l.get ⟨i, h'⟩) := by
  simp [List.get_eq_getElem, List.getElem_map]

/-- On a named field, `buildLetForField` yields the pure entry. -/
theorem buildLetForField_named (f : Field) (h : f.ident.isSome) :
    buildLetForField f = .ok (namedBuildEntry f) := by
  rcases Option.isSome_iff_exists.mp h with ⟨n, hn⟩
  rw [buildLetForField_ok f n hn]
  simp [namedBuildEntry, hn]

/-- On a named field, `setterForField` yields the pure entry. -/
theorem setterForField_named (f : Field) (h : f.ident.isSome) :
    setterForField f = .ok (namedSetterEntry f) := by
  rcases Option.isSome_iff_exists.mp h with ⟨n, hn⟩
  rw [setterForField_ok f n hn]
  simp [namedSetterEntry, hn]

/-- On a named-field struct, `generate_build_impl` succeeds and produces
one `let` strategy and one field name per field, in declared order. -/
theorem generate_build_impl_named (d : DeriveInput) (fs : List Field)
    (hd : d.data = .struct (.named fs)) (hn : ∀ f ∈ fs, f.ident.isSome) :
    generate_build_impl d = .ok ⟨d.ident, generate_builder_name d,
      fs.map (fun f => (namedBuildEntry f).1),
      fs.map (fun f => (namedBuildEntry f).2)⟩ := by
  unfold generate_build_impl
  rw [get_struct_fields_ok d _ hd]
  dsimp only [Fields.toList]
  rw [collectResults_map buildLetForField namedBuildEntry fs
    (fun x hx => buildLetForField_named x (hn x hx))]
  dsimp only
  simp [List.map_map, Function.comp]

/-- On a named-field struct, `generate_builder_struct` succeeds, its
setters and boxed fields mirror the source fields in declared order, and
the build impl is attached exactly when `gen_build_impl` is present. -/
theorem generate_builder_struct_named (d : DeriveInput) (fs : List Field)
    (hd : d.data = .struct (.named fs)) (hn : ∀ f ∈ fs, f.ident.isSome) :
    generate_builder_struct d = .ok
      ⟨generate_builder_name d,
        fs.map (fun f => (namedSetterEntry f).2),
        fs.map (fun f => (namedSetterEntry f).1),
        if has_gen_build_fn_attr d.attrs then
          some ⟨d.ident, generate_builder_name d,
            fs.map (fun f => (namedBuildEntry f).1),
            fs.map (fun f => (namedBuildEntry f).2)⟩
        else none⟩ := by
  unfold generate_builder_struct
  rw [get_struct_fields_ok d _ hd]
  dsimp only [Fields.toList]
  rw [collectResults_map setterForField namedSetterEntry fs
    (fun x hx => setterForField_named x (hn x hx))]
  dsimp only
  by_cases hg : has_gen_build_fn_attr d.attrs
  · rw [if_pos hg, if_pos hg, generate_build_impl_named d fs hd hn]
    simp [List.map_map, Function.comp]
  · rw [if_neg hg, if_neg hg]
    simp [List.map_map, Function.comp]

/-- C1: on a declaration carrying `gen_build_impl`, the generated build
operation succeeds if and only if every non-defaultable (non-`optional`)
field's presence box is present; when some non-defaultable field is
absent, it fails with `MissingField` naming the first such field in
declared order (fail-fast, later fields uninspected). -/
theorem claim_c1 {α : Type} (d : DeriveInput) (fs : List Field)
    (boxes : List (Option α)) (defaults : List α)
    (hd : d.data = .struct (.named fs))
    (hn : ∀ f ∈ fs, f.ident.isSome)
    (hattr : has_gen_build_fn_attr d.attrs = true)
    (hb : boxes.length = fs.length) (hdef : defaults.length = fs.length) :
    ∃ bd bi, generate_builder_struct d = .ok bd ∧ bd.buildImpl = some bi ∧
      bi.lets.length = fs.length ∧
      ((∃ r, execBuild bi.lets boxes defaults = .ok r) ↔
        ∀ i (hi : i < fs.length) (hi' : i < boxes.length),
          has_optional_attr (fs.get ⟨i, hi⟩) = false →
          (boxes.get ⟨i, hi'⟩).isSome) ∧
      (∀ i (hi : i < fs.length) (hi' : i < boxes.length),
        has_optional_attr (fs.get ⟨i, hi⟩) = false →
        boxes.get ⟨i, hi'⟩ = none →
        (∀ j (hj : j < fs.length) (hj' : j < boxes.length), j < i →
          has_optional_attr (fs.get ⟨j, hj⟩) = false →
          (boxes.get ⟨j, hj'⟩).isSome) →
        execBuild bi.lets boxes defaults =
          .error (.missingField ((fs.get ⟨i, hi⟩).ident.getD ""))) := by
  refine ⟨_, ⟨d.ident, generate_builder_name d,
      fs.map (fun f => (namedBuildEntry f).1),
      fs.map (fun f => (namedBuildEntry f).2)⟩,
    generate_builder_struct_named d fs hd hn, ?_, ?_, ?_, ?_⟩
  · dsimp only
    rw [if_pos hattr]
  · dsimp only
    simp
  · dsimp only
    constructor
    · rintro ⟨r, hr⟩ i hi hi' hopt
      have hlt : i < (fs.map (fun f => (namedBuildEntry f).1)).length := by
        simpa using hi
      have hopt' : has_optional_attr fs[i] = false := hopt
      have hget : (fs.map (fun f => (namedBuildEntry f).1)).get ⟨i, hlt⟩ =
          .okOrMissing ((fs.get ⟨i, hi⟩).ident.getD "") := by
        rw [get_map' _ fs i hlt hi]
        simp [namedBuildEntry, hopt']
      exact execBuild_present_of_ok _ boxes defaults r hr (by simpa using hb)
        (by simpa using hdef) i hlt hi' _ hget
    · intro hp
      apply execBuild_ok_of_present _ boxes defaults (by simpa using hb)
        (by simpa using hdef)
      intro i hi hi' n hget
      have hif : i < fs.length := by simpa using hi
      have hopt : has_optional_attr (fs.get ⟨i, hif⟩) = false := by
        by_contra hcon
        rw [Bool.not_eq_false] at hcon
        have hcon' : has_optional_attr fs[i] = true := hcon
        rw [get_map' _ fs i hi hif] at hget
        simp [namedBuildEntry, hcon'] at hget
      exact hp i hif hi' hopt
  · dsimp only
    intro i hi hi' hopt hbox hprev
    have hlt : i < (fs.map (fun f => (namedBuildEntry f).1)).length := by
      simpa using hi
    have hopt' : has_optional_attr fs[i] = false := hopt
    have hget : (fs.map (fun f => (namedBuildEntry f).1)).get ⟨i, hlt⟩ =
        .okOrMissing ((fs.get ⟨i, hi⟩).ident.getD "") := by
      rw [get_map' _ fs i hlt hi]
      simp [namedBuildEntry, hopt']
    apply execBuild_first_missing _ boxes defaults (by simpa using hb)
      (by simpa using hdef) i hlt hi' _ hget hbox
    intro j hj hj' m hji hjl
    have hjf : j < fs.length := by simpa using hj
    have hoptj : has_optional_attr (fs.get ⟨j, hjf⟩) = false := by
      by_contra hcon
      rw [Bool.not_eq_false] at hcon
      have hcon' : has_optional_attr fs[j] = true := hcon
      rw [get_map' _ fs j hj hjf] at hjl
      simp [namedBuildEntry, hcon'] at hjl
    exact hprev j hjf hj' hji hoptj

/-- Witness for C1 at a concrete input: `Agent`-like declaration with a
required `public_key` and an `optional` `role`; with `public_key` set and
`role` unset the build succeeds. -/
theorem claim_c1_witness :
    ∃ bd bi, generate_builder_struct
        ⟨"Agent", [⟨["gen_build_impl"], some (.word "gen_build_impl")⟩],
          .struct (.named
            [⟨some "public_key", .path [.mk "String" .noArgs], []⟩,
             ⟨some "role", .path [.mk "String" .noArgs],
               [⟨["optional"], some (.word "optional")⟩]⟩])⟩ = .ok bd ∧
      bd.buildImpl = some bi ∧
      ∃ r, execBuild bi.lets [some (1 : Nat), none] [0, 0] = .ok r := by
  rcases claim_c1 (α := Nat)
      ⟨"Agent", [⟨["gen_build_impl"], some (.word "gen_build_impl")⟩],
        .struct (.named
          [⟨some "public_key", .path [.mk "String" .noArgs], []⟩,
           ⟨some "role", .path [.mk "String" .noArgs],
             [⟨["optional"], some (.word "optional")⟩]⟩])⟩
      [⟨some "public_key", .path [.mk "String" .noArgs], []⟩,
       ⟨some "role", .path [.mk "String" .noArgs],
         [⟨["optional"], some (.word "optional")⟩]⟩]
      [some 1, none] [0, 0] rfl (by decide) rfl rfl rfl with
    ⟨bd, bi, h1, h2, _, hiff, _⟩
  exact ⟨bd, bi, h1, h2, hiff.mpr (by decide)⟩

/-- C2: the generated setters are one per field in declared order, named
`with_<field>` and targeting that field; their semantics (set the box to
present with the given value, return the updated builder, never fail)
satisfies last-write-wins for repeated calls on one field and
commutativity across distinct fields. -/
theorem claim_c2 {α : Type} (d : DeriveInput) (fs : List Field)
    (hd : d.data = .struct (.named fs)) (hn : ∀ f ∈ fs, f.ident.isSome) :
    (∃ bd, generate_builder_struct d = .ok bd ∧
      bd.setters.length = fs.length ∧
      ∀ i (hi : i < fs.length) (hi' : i < bd.setters.length),
        (bd.setters.get ⟨i, hi'⟩).name =
            "with_" ++ ((fs.get ⟨i, hi⟩).ident.getD "") ∧
        (bd.setters.get ⟨i, hi'⟩).field = (fs.get ⟨i, hi⟩).ident.getD "") ∧
    (∀ (i : Nat) (v w : α) (s : List (Option α)),
      setterSem i v (setterSem i w s) = setterSem i v s) ∧
    (∀ (i j : Nat) (v w : α) (s : List (Option α)), i ≠ j →
      setterSem i v (setterSem j w s) = setterSem j w (setterSem i v s)) ∧
    (∀ (i : Nat) (v : α) (s : List (Option α)) (hi : i < s.length),
      (setterSem i v s).get ⟨i, by simpa [setterSem] using hi⟩ = some v) := by
  refine ⟨⟨_, generate_builder_struct_named d fs hd hn, ?_, ?_⟩, ?_, ?_, ?_⟩
  · dsimp only
    simp
  · dsimp only
    intro i hi hi'
    rw [get_map' _ fs i hi' hi]
    exact ⟨rfl, rfl⟩
  · intro i v w s
    simp [setterSem, List.set_set]
  · intro i j v w s hij
    exact List.set_comm (some w) (some v) s (fun h => hij h.symm)
  · intro i v s hi
    simp [setterSem, List.get_eq_getElem]

/-- Witness for C2 at a concrete input: a one-field declaration generates
the `with_org_id` setter, and the semantic laws hold at concrete
values. -/
theorem claim_c2_witness :
    (∃ bd, generate_builder_struct
        ⟨"Organization", [],
          .struct (.named [⟨some "org_id", .path [.mk "String" .noArgs], []⟩])⟩ =
        .ok bd ∧ bd.setters.length = 1) ∧
    setterSem 0 (5 : Nat) (setterSem 0 3 [none]) = setterSem 0 5 [none] := by
  rcases claim_c2 (α := Nat)
      ⟨"Organization", [],
        .struct (.named [⟨some "org_id", .path [.mk "String" .noArgs], []⟩])⟩
      [⟨some "org_id", .path [.mk "String" .noArgs], []⟩] rfl (by decide) with
    ⟨⟨bd, hbd, hlen, _⟩, hlast, _, _⟩
  exact ⟨⟨bd, hbd, hlen⟩, hlast 0 5 3 [none]⟩

/-- C3: in a successful generated build, a defaultable (`optional`) field
whose presence box is absent resolves to the field type's default value,
and one whose box is present resolves to the boxed value. -/
theorem claim_c3 {α : Type} (d : DeriveInput) (fs : List Field)
    (boxes : List (Option α)) (defaults : List α) (r : List α)
    (bd : BuilderDef) (bi : BuildImpl)
    (hd : d.data = .struct (.named fs)) (hn : ∀ f ∈ fs, f.ident.isSome)
    (hb : boxes.length = fs.length) (hdef : defaults.length = fs.length)
    (hgen : generate_builder_struct d = .ok bd) (hbi : bd.buildImpl = some bi)
    (hr : execBuild bi.lets boxes defaults = .ok r) :
    ∀ i (hi : i < fs.length) (hi' : i < boxes.length)
      (hid : i < defaults.length) (hir : i < r.length),
      has_optional_attr (fs.get ⟨i, hi⟩) = true →
      (boxes.get ⟨i, hi'⟩ = none → r.get ⟨i, hir⟩ = defaults.get ⟨i, hid⟩) ∧
      (∀ v, boxes.get ⟨i, hi'⟩ = some v → r.get ⟨i, hir⟩ = v) := by
  have hst := generate_builder_struct_named d fs hd hn
  rw [hgen] at hst
  injection hst with hst
  subst hst
  dsimp only at hbi
  by_cases hg : has_gen_build_fn_attr d.attrs
  case neg => rw [if_neg hg] at hbi; exact nomatch hbi
  rw [if_pos hg] at hbi
  injection hbi with hbi
  subst hbi
  dsimp only at hr ⊢
  intro i hi hi' hid hir hopt
  have hlt : i < (fs.map (fun f => (namedBuildEntry f).1)).length := by
    simpa using hi
  have hopt' : has_optional_attr fs[i] = true := hopt
  have hget : (fs.map (fun f => (namedBuildEntry f).1)).get ⟨i, hlt⟩ =
      .unwrapOrDefault := by
    rw [get_map' _ fs i hlt hi]
    simp [namedBuildEntry, hopt']
  have hspec := (execBuild_ok_get _ boxes defaults r hr (by simpa using hb)
    (by simpa using hdef) i hlt hi' hid hir).1 hget
  constructor
  · intro hbox
    rw [hspec, hbox]
    rfl
  · intro v hbox
    rw [hspec, hbox]
    rfl

/-- Witness for C3 at a concrete input: with required `public_key` set to
`1` and `optional` `role` unset, the build's resolved `role` value equals
the default (`7`). -/
theorem claim_c3_witness :
    [(1 : Nat), 7].get ⟨1, by decide⟩ = [9, 7].get ⟨1, by decide⟩ :=
  (claim_c3 (α := Nat)
      ⟨"Agent", [⟨["gen_build_impl"], some (.word "gen_build_impl")⟩],
        .struct (.named
          [⟨some "public_key", .path [.mk "String" .noArgs], []⟩,
           ⟨some "role", .path [.mk "String" .noArgs],
             [⟨["optional"], some (.word "optional")⟩]⟩])⟩
      [⟨some "public_key", .path [.mk "String" .noArgs], []⟩,
       ⟨some "role", .path [.mk "String" .noArgs],
         [⟨["optional"], some (.word "optional")⟩]⟩]
      [some 1, none] [9, 7] [1, 7]
      ⟨"AgentBuilder",
        [("public_key", .path [.mk "String" .noArgs]),
         ("role", .path [.mk "String" .noArgs])],
        [⟨"with_public_key", "public_key"⟩, ⟨"with_role", "role"⟩],
        some ⟨"Agent", "AgentBuilder",
          [.okOrMissing "public_key", .unwrapOrDefault],
          ["public_key", "role"]⟩⟩
      ⟨"Agent", "AgentBuilder",
        [.okOrMissing "public_key", .unwrapOrDefault],
        ["public_key", "role"]⟩
      rfl (by decide) rfl rfl rfl rfl rfl
      1 (by decide) (by decide) (by decide) (by decide) rfl).1 rfl

end Transact
